import Mathlib

/-!
# Verification of `scripts/create-pipeline-image.py`

A shallow embedding of the pipeline-collage script. The script discovers
`GA_image*.png` files in an assets directory, sorts them by a numeric key
extracted from the filename stem, loads and resizes each image to a fixed
height, lays the panels out in two rows (first three panels in row 1, the
rest in row 2), draws a letter label and inter-panel arrows, and writes a
2x-upscaled PNG.

Conventions of the embedding:
* A filename is represented by its stem (the name without the `.png`
  extension), as a `String`; string comparison is modelled on `List Char`
  (code-point lexicographic order, as in Python).
* An image is represented by its pixel dimensions (`Img`); the sharpness
  enhancement of `load_and_prepare` alters pixel values, never geometry,
  so it is the identity in this geometric model.
* `int(w * target_h / h)` in the source truncates the true-division float
  quotient toward zero; for the nonnegative integers involved this is
  floor division, so it is modelled as `Nat` division (exact float
  arithmetic is assumed at these magnitudes).
* Python's `int(s)` parser is modelled for an optional `+`/`-` sign
  followed by ASCII digits; exotic accepted forms (surrounding
  whitespace, underscores, non-ASCII decimal digits) are not modelled.
* Drawing is modelled as the list of draw calls (`Ev`) the script issues,
  with their integer coordinates; pixel rasterisation is the imaging
  library's concern and is not modelled.
-/

/-! ## Module constants (layout constants of the script) -/

def PIPELINE_HEIGHT : Nat := 340
def ARROW_WIDTH : Nat := 10
def PADDING : Nat := 12
def ROW_GAP : Nat := 20
def LETTER_WIDTH : Nat := 18

/-! ## Discovery: `discover_images` and its `sort_key` -/

/-- The stem pattern `"GA_image"` used both as the glob base and as the
text removed by `stem.replace("GA_image", "")`. -/
def gaPat : List Char := "GA_image".toList

/-- Fuel-driven worker for `replaceGA`; the fuel is the list length, which
always suffices because each step consumes at least one character. -/
def replaceGAFuel : Nat → List Char → List Char
  | 0, _ => []
  | _, [] => []
  | fuel + 1, c :: rest =>
    if (c :: rest).take gaPat.length = gaPat then
      replaceGAFuel fuel ((c :: rest).drop gaPat.length)
    else
      c :: replaceGAFuel fuel rest

/-- Python's `stem.replace("GA_image", "")`: remove every non-overlapping
occurrence of the pattern, scanning left to right. -/
def replaceGA (l : List Char) : List Char := replaceGAFuel l.length l

/-- Accumulator worker: value of a run of ASCII digits, `none` on a
non-digit character. -/
def digitsValAux : Nat → List Char → Option Nat
  | acc, [] => some acc
  | acc, c :: rest =>
    if c.isDigit then digitsValAux (acc * 10 + (c.toNat - 48)) rest else none

/-- Python's `int(s)` on a non-empty suffix: optional sign followed by at
least one ASCII digit; anything else raises `ValueError`, modelled as
`none`. -/
def parsePyInt : List Char → Option Int
  | [] => none
  | '-' :: rest =>
    if rest = [] then none else (digitsValAux 0 rest).map (fun n => -(n : Int))
  | '+' :: rest =>
    if rest = [] then none else (digitsValAux 0 rest).map (fun n => (n : Int))
  | l => (digitsValAux 0 l).map (fun n => (n : Int))

/-- First component of `sort_key` in `discover_images`: `0` for the bare
stem `"GA_image"` or an empty suffix, the parsed integer for a numeric
suffix, and the sentinel `999` when `int(suffix)` raises `ValueError`. -/
def sortIdx (stem : String) : Int :=
  if stem.toList = gaPat then 0
  else
    let suffix := replaceGA stem.toList
    if suffix = [] then 0
    else
      match parsePyInt suffix with
      | some n => n
      | none => 999

/-- The ordering `discover_images` sorts by: Python tuple comparison on
`(sort_key index, stem)`, with the stem compared code-point
lexicographically. -/
def keyLE (a b : String) : Prop :=
  sortIdx a < sortIdx b ∨ (sortIdx a = sortIdx b ∧ a.toList ≤ b.toList)

instance : DecidableRel keyLE := fun a b => by
  unfold keyLE; infer_instance

instance : IsTrans String keyLE :=
  ⟨by
    intro a b c hab hbc
    rcases hab with h1 | ⟨h1, h1'⟩ <;> rcases hbc with h2 | ⟨h2, h2'⟩
    · exact Or.inl (lt_trans h1 h2)
    · exact Or.inl (by omega)
    · exact Or.inl (by omega)
    · exact Or.inr ⟨by omega, le_trans h1' h2'⟩⟩

instance : IsTotal String keyLE :=
  ⟨by
    intro a b
    rcases lt_trichotomy (sortIdx a) (sortIdx b) with h | h | h
    · exact Or.inl (Or.inl h)
    · rcases le_total a.toList b.toList with h' | h'
      · exact Or.inl (Or.inr ⟨h, h'⟩)
      · exact Or.inr (Or.inr ⟨h.symm, h'⟩)
    · exact Or.inr (Or.inl h)⟩

instance : IsAntisymm String keyLE :=
  ⟨by
    intro a b hab hba
    have hidx : sortIdx a = sortIdx b := by
      rcases hab with h1 | ⟨h1, _⟩ <;> rcases hba with h2 | ⟨h2, _⟩ <;> omega
    have h1' : a.toList ≤ b.toList := by
      rcases hab with h1 | ⟨_, h1'⟩
      · omega
      · exact h1'
    have h2' : b.toList ≤ a.toList := by
      rcases hba with h2 | ⟨_, h2'⟩
      · omega
      · exact h2'
    exact String.toList_inj.mp (le_antisymm h1' h2')⟩

/-- `discover_images`, as a function of the multiset of stems the glob
returned (the glob's enumeration order is unspecified). Python's
`paths.sort(key=sort_key)` produces the unique permutation of its input
that is sorted for `keyLE` (the order is total, transitive and
antisymmetric), so any correct sorting algorithm models it exactly. -/
def discover_images (found : List String) : List String :=
  List.insertionSort keyLE found

lemma discover_images_perm (l : List String) : (discover_images l).Perm l :=
  List.perm_insertionSort keyLE l

lemma discover_images_sorted_keyLE (l : List String) :
    (discover_images l).Sorted keyLE :=
  List.sorted_insertionSort keyLE l

lemma discover_images_eq_nil_iff (l : List String) :
    discover_images l = [] ↔ l = [] := by
  constructor
  · intro h
    have := discover_images_perm l
    rw [h] at this
    exact this.symm.eq_nil
  · intro h
    subst h
    rfl

/-! ## Preparation: `load_and_prepare` and `resize_to_height` -/

/-- An in-memory image, reduced to its pixel dimensions. -/
structure Img where
  w : Nat
  h : Nat
deriving DecidableEq

/-- `load_and_prepare`: decode to RGBA and apply a +15% sharpness
enhancement. Sharpness changes pixel values, never dimensions, so in the
geometric model it is the identity on `Img`. -/
def load_and_prepare (img : Img) : Img := img

/-- `resize_to_height`: return the image unchanged when its height already
equals the target, otherwise resize to `(int(w * target_h / h), target_h)`.
The `int(...)` of the float quotient truncates, i.e. floor division on
these nonnegative values. -/
def resize_to_height (img : Img) (target_h : Nat) : Img :=
  if img.h = target_h then img
  else { w := img.w * target_h / img.h, h := target_h }

/-! ## Layout planning (from `main`) -/

/-- `row_width` in `main`:
`sum(LETTER_WIDTH + p.width for p in p_list) + ARROW_WIDTH * max(0, len(p_list) - 1)`
(`Nat` subtraction is exactly `max(0, len - 1)`). -/
def row_width (p_list : List Img) : Nat :=
  (p_list.map (fun p => LETTER_WIDTH + p.w)).sum + ARROW_WIDTH * (p_list.length - 1)

/-- `row1 = panels[: min(3, n)]`. -/
def row1_of (panels : List Img) : List Img := panels.take (min 3 panels.length)

/-- `row2 = panels[len(row1):]`. -/
def row2_of (panels : List Img) : List Img := panels.drop (row1_of panels).length

/-- `total_width = max(w1, w2) + PADDING * 2` with
`w2 = row_width(row2) if row2 else 0`. -/
def total_width (panels : List Img) : Nat :=
  max (row_width (row1_of panels))
    (if row2_of panels = [] then 0 else row_width (row2_of panels)) + PADDING * 2

/-- `total_height = (PIPELINE_HEIGHT * 2) + ROW_GAP + PADDING * 2 if row2
else PIPELINE_HEIGHT + PADDING * 2`. -/
def total_height (panels : List Img) : Nat :=
  if row2_of panels = [] then PIPELINE_HEIGHT + PADDING * 2
  else PIPELINE_HEIGHT * 2 + ROW_GAP + PADDING * 2

/-- `row2_start_x = PADDING + max(0, (w1 - w2) // 2)`; Python's `//` is
floor division, `Int.fdiv`. -/
def row2_start_x (w1 w2 : Nat) : Int :=
  (PADDING : Int) + max 0 (Int.fdiv ((w1 : Int) - (w2 : Int)) 2)

/-! ## Rendering (from `draw_row`, `draw_section_letter`, `main`) -/

/-- One draw call issued while rendering: a gutter label (its gutter's
top-left corner and the 1-based step index), a panel paste (top-left
corner), or an arrow (`draw_arrow(draw, x1, y1, x2, y2)`). -/
inductive Ev where
  | letter (x y : Int) (step : Nat)
  | paste (x y : Int) (panel : Img)
  | arrow (x1 y1 x2 y2 : Int)
deriving DecidableEq

/-- `text = chr(ord("A") + step - 1) if step <= 26 else str(step)` in
`draw_section_letter`. -/
def step_label (step : Nat) : String :=
  if step ≤ 26 then String.singleton (Char.ofNat (65 + step - 1))
  else Nat.repr step

/-- The loop body of `draw_row`, recursing over the remaining panels with
the cursor `x` and the current step index: draw the letter at the cursor,
paste the panel after the gutter, advance past gutter and panel, and when
another panel follows draw an arrow across the `ARROW_WIDTH` gap and
advance past it. -/
def draw_row_aux (start_y center_y : Int) : List Img → Int → Nat → List Ev
  | [], _, _ => []
  | [p], x, step =>
    [Ev.letter x start_y step, Ev.paste (x + LETTER_WIDTH) start_y p]
  | p :: p2 :: rest, x, step =>
    Ev.letter x start_y step ::
    Ev.paste (x + LETTER_WIDTH) start_y p ::
    Ev.arrow (x + LETTER_WIDTH + p.w) center_y
      (x + LETTER_WIDTH + p.w + ARROW_WIDTH) center_y ::
    draw_row_aux start_y center_y (p2 :: rest)
      (x + LETTER_WIDTH + p.w + ARROW_WIDTH) (step + 1)

/-- `draw_row(panels_list, start_y, step_start, start_x)` with
`center_y = start_y + PIPELINE_HEIGHT // 2`. -/
def draw_row (panels_list : List Img) (start_y : Int) (step_start : Nat)
    (start_x : Int) : List Ev :=
  draw_row_aux start_y (start_y + (PIPELINE_HEIGHT : Int) / 2)
    panels_list start_x step_start

/-- The sequence of draw calls `main` issues on the canvas: row 1 at
`y1 = PADDING` starting at `x = PADDING` with steps from 1, then, when row
2 is non-empty, row 2 at `y2 = PADDING + PIPELINE_HEIGHT + ROW_GAP`
starting at `row2_start_x` with steps from `len(row1) + 1`. No draw call
connects the rows. -/
def render_events (panels : List Img) : List Ev :=
  if row2_of panels = [] then
    draw_row (row1_of panels) (PADDING : Int) 1 (PADDING : Int)
  else
    draw_row (row1_of panels) (PADDING : Int) 1 (PADDING : Int) ++
      draw_row (row2_of panels) ((PADDING : Int) + PIPELINE_HEIGHT + ROW_GAP)
        ((row1_of panels).length + 1)
        (row2_start_x (row_width (row1_of panels)) (row_width (row2_of panels)))

/-! ## Whole-program models -/

/-- Exit behaviour of `main`, as a function of whether the assets
directory exists and of the stems the glob matched: the pair is
(exit status, whether the output file was written). `main` returns 1
before writing anything when the directory is missing or no file matched,
and otherwise writes the composed image and returns 0. -/
def main_run (assets_exists : Bool) (found : List String) : Nat × Bool :=
  if !assets_exists then (1, false)
  else
    let image_paths := discover_images found
    if image_paths = [] then (1, false)
    else (0, true)

/-- The composed output of a successful run, as a function of the
discovered stems and of the image contents on disk (`contents` maps a stem
to the decoded image): the final saved size (the canvas is upscaled 2x
before saving) together with every draw call issued on the canvas. Every
stage after discovery is a pure function of the sorted path list. -/
def pipeline_output (contents : String → Img) (found : List String) :
    (Nat × Nat) × List Ev :=
  let paths := discover_images found
  let panels := paths.map
    (fun p => resize_to_height (load_and_prepare (contents p)) PIPELINE_HEIGHT)
  ((total_width panels * 2, total_height panels * 2), render_events panels)

/-! ## Event projections used by the theorems -/

/-- The arrows among a list of draw calls, in order. -/
def arrows_of (evs : List Ev) : List (Int × Int × Int × Int) :=
  evs.filterMap (fun e =>
    match e with
    | Ev.arrow x1 y1 x2 y2 => some (x1, y1, x2, y2)
    | _ => none)

/-- The pasted panels among a list of draw calls, in order. -/
def pasted_of (evs : List Ev) : List Img :=
  evs.filterMap (fun e =>
    match e with
    | Ev.paste _ _ p => some p
    | _ => none)

/-- The step indices of the gutter labels among a list of draw calls, in
order. -/
def steps_of (evs : List Ev) : List Nat :=
  evs.filterMap (fun e =>
    match e with
    | Ev.letter _ _ s => some s
    | _ => none)

/-- The rendered label texts among a list of draw calls, in order. -/
def labels_of (evs : List Ev) : List String :=
  (steps_of evs).map step_label

/-- The x-coordinates at which `draw_row` starts an arrow, for a row
beginning at cursor position `x`: one after each panel except the last. -/
def arrow_xs (x : Int) : List Img → List Int
  | [] => []
  | [_] => []
  | p :: p2 :: rest =>
    (x + LETTER_WIDTH + p.w) ::
      arrow_xs (x + LETTER_WIDTH + p.w + ARROW_WIDTH) (p2 :: rest)

/-! ## Helper lemmas about the render-event projections -/

lemma arrows_of_append (a b : List Ev) :
    arrows_of (a ++ b) = arrows_of a ++ arrows_of b :=
  List.filterMap_append a b _

lemma pasted_of_append (a b : List Ev) :
    pasted_of (a ++ b) = pasted_of a ++ pasted_of b :=
  List.filterMap_append a b _

lemma steps_of_append (a b : List Ev) :
    steps_of (a ++ b) = steps_of a ++ steps_of b :=
  List.filterMap_append a b _

lemma arrows_of_draw_row_aux (sy cy : Int) (ps : List Img) (x : Int) (st : Nat) :
    arrows_of (draw_row_aux sy cy ps x st) =
      (arrow_xs x ps).map (fun a => (a, cy, a + (ARROW_WIDTH : Int), cy)) := by
  induction ps generalizing x st with
  | nil => rfl
  | cons p rest ih =>
    cases rest with
    | nil => rfl
    | cons p2 rest2 =>
      simp only [draw_row_aux, arrow_xs, arrows_of, List.filterMap_cons, List.map_cons]
      simpa [arrows_of] using ih (x + (LETTER_WIDTH : Int) + (p.w : Int) + (ARROW_WIDTH : Int)) (st + 1)

lemma arrow_xs_length (x : Int) (ps : List Img) :
    (arrow_xs x ps).length = ps.length - 1 := by
  induction ps generalizing x with
  | nil => rfl
  | cons p rest ih =>
    cases rest with
    | nil => rfl
    | cons p2 rest2 =>
      simp only [arrow_xs, List.length_cons]
      rw [ih]
      simp

lemma pasted_of_draw_row_aux (sy cy : Int) (ps : List Img) (x : Int) (st : Nat) :
    pasted_of (draw_row_aux sy cy ps x st) = ps := by
  induction ps generalizing x st with
  | nil => rfl
  | cons p rest ih =>
    cases rest with
    | nil => rfl
    | cons p2 rest2 =>
      simp only [draw_row_aux, pasted_of, List.filterMap_cons]
      simpa [pasted_of] using ih (x + (LETTER_WIDTH : Int) + (p.w : Int) + (ARROW_WIDTH : Int)) (st + 1)

lemma steps_of_draw_row_aux (sy cy : Int) (ps : List Img) (x : Int) (st : Nat) :
    steps_of (draw_row_aux sy cy ps x st) = List.range' st ps.length := by
  induction ps generalizing x st with
  | nil => rfl
  | cons p rest ih =>
    cases rest with
    | nil => rfl
    | cons p2 rest2 =>
      simp only [draw_row_aux, steps_of, List.filterMap_cons]
      have := ih (x + (LETTER_WIDTH : Int) + (p.w : Int) + (ARROW_WIDTH : Int)) (st + 1)
      simp only [steps_of] at this
      simp [this, List.range']

lemma arrows_of_draw_row (ps : List Img) (sy : Int) (st : Nat) (sx : Int) :
    arrows_of (draw_row ps sy st sx) =
      (arrow_xs sx ps).map
        (fun a => (a, sy + (PIPELINE_HEIGHT : Int) / 2, a + (ARROW_WIDTH : Int),
          sy + (PIPELINE_HEIGHT : Int) / 2)) :=
  arrows_of_draw_row_aux _ _ _ _ _

lemma pasted_of_draw_row (ps : List Img) (sy : Int) (st : Nat) (sx : Int) :
    pasted_of (draw_row ps sy st sx) = ps :=
  pasted_of_draw_row_aux _ _ _ _ _

lemma steps_of_draw_row (ps : List Img) (sy : Int) (st : Nat) (sx : Int) :
    steps_of (draw_row ps sy st sx) = List.range' st ps.length :=
  steps_of_draw_row_aux _ _ _ _ _

lemma row1_length (panels : List Img) :
    (row1_of panels).length = min 3 panels.length := by
  unfold row1_of
  rw [List.length_take]
  show min (min 3 panels.length) panels.length = min 3 panels.length
  omega

lemma row1_row2_append (panels : List Img) :
    row1_of panels ++ row2_of panels = panels := by
  unfold row2_of
  rw [row1_length]
  unfold row1_of
  exact List.take_append_drop _ _

/-! ## Claim C1: discovery order -/

/-- Spec-side reading of the claim: the numeric index the claim says is
extracted from a stem, with `none` for a non-numeric suffix (which, per
the claim, should sort after every numeric one). -/
def spec_suffix_index (stem : String) : Option Int :=
  if stem.toList = gaPat then some 0
  else
    let suffix := replaceGA stem.toList
    if suffix = [] then some 0 else parsePyInt suffix

/-- The part of the claim refuted below: in the discovered order, a
filename with a non-numeric suffix never precedes a filename with a
numeric suffix. -/
def spec_nonnumeric_after_numeric (l : List String) : Prop :=
  l.Pairwise (fun a b =>
    ¬(spec_suffix_index a = none ∧ (spec_suffix_index b).isSome = true))

/-- **C1, counterexample.** The source maps a non-numeric suffix to the
sentinel index `999`, not past every numeric index: with the two matching
files `GA_image1000.png` and `GA_imageX.png`, discovery orders the
non-numeric `GA_imageX` (index 999) *before* the numeric `GA_image1000`
(index 1000), so a non-numeric suffix does not sort after all numeric
suffixes. -/
theorem discovery_order_C1_counterexample :
    discover_images ["GA_image1000", "GA_imageX"] = ["GA_imageX", "GA_image1000"] ∧
    spec_suffix_index "GA_imageX" = none ∧
    spec_suffix_index "GA_image1000" = some 1000 ∧
    ¬ spec_nonnumeric_after_numeric (discover_images ["GA_image1000", "GA_imageX"]) := by
  refine ⟨by decide, by decide, by decide, ?_⟩
  unfold spec_nonnumeric_after_numeric
  decide

/-- **C1, amended.** For every set of discovered filenames, the discovery
order is non-decreasing by the index of `sort_key` — the bare name and an
absent suffix count as index 0, a numeric suffix as its value, and a
non-numeric suffix as the sentinel 999 (after numeric suffixes below 999
but before those of 999 and above) — with ties broken by name, and the
result is a permutation of the discovered set. -/
theorem discovery_order_C1_amended (l : List String) :
    (discover_images l).Sorted keyLE ∧
    (discover_images l).Pairwise (fun a b => sortIdx a ≤ sortIdx b) ∧
    (discover_images l).Perm l := by
  refine ⟨discover_images_sorted_keyLE l, ?_, discover_images_perm l⟩
  refine (discover_images_sorted_keyLE l).imp ?_
  intro a b hab
  rcases hab with h | ⟨h, _⟩ <;> omega

/-! ## Claim C2: resize dimensions -/

/-- Nearest-integer value of the fraction `a / b` (ties round up); the
rounding the claim asserts for the resized width. -/
def round_div (a b : Nat) : Nat := (2 * a + b) / (2 * b)

/-- **C2, counterexample.** For an image of width 2 and height 3 resized
to the target height 340 the source computes `int(2 * 340 / 3) = 226`
(truncation), while the nearest integer to `680 / 3 ≈ 226.67` is 227
(`227` is strictly closer, as the final conjunct shows): the width is not
the ratio rounded to the nearest integer pixel. -/
theorem resize_width_C2_counterexample :
    (resize_to_height ⟨2, 3⟩ 340).w = 226 ∧
    round_div (2 * 340) 3 = 227 ∧
    (resize_to_height ⟨2, 3⟩ 340).w ≠ round_div (2 * 340) 3 ∧
    (3 * 227 - 2 * 340 : Int).natAbs < (2 * 340 - 3 * 226 : Int).natAbs := by
  decide

/-- **C2, amended.** For every input image of height `h > 0`, the prepared
panel's height equals the target height exactly, and its width is
`w * target_h / h` rounded *down* (truncated), not to the nearest
integer. -/
theorem resize_dims_C2_amended (img : Img) (target_h : Nat) (hh : 0 < img.h) :
    (resize_to_height img target_h).h = target_h ∧
    (resize_to_height img target_h).w = img.w * target_h / img.h := by
  unfold resize_to_height
  by_cases h : img.h = target_h
  · rw [if_pos h]
    refine ⟨h, ?_⟩
    rw [← h, Nat.mul_div_cancel _ hh]
  · rw [if_neg h]
    exact ⟨rfl, rfl⟩

/-- Witness for C2 at the concrete image 2×3 and target height 340. -/
theorem resize_dims_C2_amended_witness :
    (resize_to_height ⟨2, 3⟩ 340).h = 340 ∧
    (resize_to_height ⟨2, 3⟩ 340).w = 2 * 340 / 3 :=
  resize_dims_C2_amended ⟨2, 3⟩ 340 (by decide)

/-! ## Claim C3: row 2 centering -/

/-- **C3, counterexample.** With four panels of widths 10, 10, 10 and 200,
row 1 is 104 px wide and row 2 is 218 px wide. Centering row 2 under row 1
would start it at `PADDING + (104 - 218) // 2 = -45`, but the source
clamps the offset with `max(0, ...)` and places row 2 at `x = 12 = PADDING`
(left-aligned); its centre `12 + 218/2 = 121` differs from row 1's centre
`12 + 104/2 = 64`, so when row 2 is wider than row 1 it is not centered
under row 1's width. -/
theorem row2_centering_C3_counterexample :
    row_width [⟨10, 340⟩, ⟨10, 340⟩, ⟨10, 340⟩] = 104 ∧
    row_width [⟨200, 340⟩] = 218 ∧
    row2_start_x 104 218 = 12 ∧
    (PADDING : Int) + Int.fdiv ((104 : Int) - 218) 2 = -45 ∧
    row2_start_x 104 218 + 218 / 2 ≠ (PADDING : Int) + 104 / 2 := by
  decide

/-- **C3, amended.** Row 2's horizontal start offset centers it under
row 1's width only when row 2 is not wider than row 1 (then the offset is
`PADDING + (w1 - w2) // 2`); when row 2 is wider, the offset is clamped to
the bare padding and row 2 is left-aligned, not centered. -/
theorem row2_centering_C3_amended (w1 w2 : Nat) :
    row2_start_x w1 w2 =
      if w2 ≤ w1 then (PADDING : Int) + ((w1 - w2 : Nat) : Int) / 2
      else (PADDING : Int) := by
  unfold row2_start_x
  rw [Int.fdiv_eq_ediv _ (by omega : (0 : Int) ≤ 2)]
  by_cases h : w2 ≤ w1
  · rw [if_pos h]
    have h1 : (w1 : Int) - (w2 : Int) = ((w1 - w2 : Nat) : Int) := by omega
    rw [h1]
    omega
  · rw [if_neg h]
    omega

/-! ## Claim C4: canvas dimension formulas -/

/-- **C4.** For every non-empty panel list: each row's width is the sum
over its panels of (letter-gutter width + panel width) plus arrow width ×
(panel count − 1); the canvas width is `max(row1_width, row2_width) +
2 × padding` (when row 2 is empty its width `row_width [] = 0` coincides
with the `0` the source substitutes); the canvas height is one row plus
padding when row 2 is empty and two rows plus the row gap plus padding
otherwise. -/
theorem canvas_dims_C4 (panels : List Img) (hne : panels ≠ []) :
    total_width panels =
      max (row_width (row1_of panels)) (row_width (row2_of panels)) + 2 * PADDING ∧
    total_height panels =
      (if row2_of panels = [] then PIPELINE_HEIGHT + 2 * PADDING
       else 2 * PIPELINE_HEIGHT + ROW_GAP + 2 * PADDING) ∧
    row_width (row1_of panels) =
      ((row1_of panels).map (fun p => LETTER_WIDTH + p.w)).sum +
        ARROW_WIDTH * ((row1_of panels).length - 1) ∧
    row_width (row2_of panels) =
      ((row2_of panels).map (fun p => LETTER_WIDTH + p.w)).sum +
        ARROW_WIDTH * ((row2_of panels).length - 1) := by
  refine ⟨?_, ?_, rfl, rfl⟩
  · unfold total_width
    by_cases h : row2_of panels = []
    · rw [if_pos h, h]
      have hnil : row_width ([] : List Img) = 0 := rfl
      rw [hnil]
      omega
    · rw [if_neg h]
      omega
  · unfold total_height
    by_cases h : row2_of panels = []
    · rw [if_pos h, if_pos h]
      omega
    · rw [if_neg h, if_neg h]
      omega

/-- Witness for C4 on the one-panel list `[100 × 340]`. -/
theorem canvas_dims_C4_witness :
    total_width [(⟨100, 340⟩ : Img)] =
      max (row_width (row1_of [⟨100, 340⟩])) (row_width (row2_of [⟨100, 340⟩])) +
        2 * PADDING ∧
    total_height [(⟨100, 340⟩ : Img)] =
      (if row2_of [(⟨100, 340⟩ : Img)] = [] then PIPELINE_HEIGHT + 2 * PADDING
       else 2 * PIPELINE_HEIGHT + ROW_GAP + 2 * PADDING) ∧
    row_width (row1_of [(⟨100, 340⟩ : Img)]) =
      ((row1_of [(⟨100, 340⟩ : Img)]).map (fun p => LETTER_WIDTH + p.w)).sum +
        ARROW_WIDTH * ((row1_of [(⟨100, 340⟩ : Img)]).length - 1) ∧
    row_width (row2_of [(⟨100, 340⟩ : Img)]) =
      ((row2_of [(⟨100, 340⟩ : Img)]).map (fun p => LETTER_WIDTH + p.w)).sum +
        ARROW_WIDTH * ((row2_of [(⟨100, 340⟩ : Img)]).length - 1) :=
  canvas_dims_C4 [⟨100, 340⟩] (by decide)

/-! ## Claim C5: exit status and output file -/

/-- **C5.** The run exits with status 1 and writes no output exactly when
the assets directory is missing or no filename matched the glob; otherwise
it writes the output file and exits with status 0. -/
theorem exit_codes_C5 (assets_exists : Bool) (found : List String) :
    (main_run assets_exists found = (1, false) ↔
      assets_exists = false ∨ found = []) ∧
    (main_run assets_exists found = (0, true) ↔
      assets_exists = true ∧ found ≠ []) := by
  unfold main_run
  cases assets_exists with
  | false => simp
  | true =>
    by_cases h : found = []
    · subst h
      simp [discover_images]
    · have hd : discover_images found ≠ [] :=
        fun hh => h ((discover_images_eq_nil_iff found).mp hh)
      simp [hd, h]

/-! ## Claim C6: step labels -/

/-- The capital alphabet, for stating which letter sits at which
position. -/
def alphabet : List Char :=
  ['A', 'B', 'C', 'D', 'E', 'F', 'G', 'H', 'I', 'J', 'K', 'L', 'M',
   'N', 'O', 'P', 'Q', 'R', 'S', 'T', 'U', 'V', 'W', 'X', 'Y', 'Z']

/-- Five prepared panels, all already at the pipeline height, for the
five-image scenario of the claim. -/
def panels5 : List Img := List.replicate 5 ⟨100, 340⟩

/-- **C6.** A panel at absolute step `s` (1-based, across both rows) is
labeled with the single capital letter at position `s` of the alphabet
when `s ≤ 26`, and with the decimal numeral of `s` (`Nat.repr`) when
`s > 26`; with five input images, row 1's gutter labels are A, B, C and
row 2's (drawn with `step_start = len(row1) + 1`, exactly as in `main`)
are D, E. -/
theorem step_labels_C6 :
    (∀ i : Fin 26, step_label (i.val + 1) = String.singleton (alphabet.get i)) ∧
    (∀ step : Nat, 26 < step → step_label step = Nat.repr step) ∧
    labels_of (draw_row (row1_of panels5) (PADDING : Int) 1 (PADDING : Int)) =
      ["A", "B", "C"] ∧
    labels_of (draw_row (row2_of panels5)
      ((PADDING : Int) + PIPELINE_HEIGHT + ROW_GAP) ((row1_of panels5).length + 1)
      (row2_start_x (row_width (row1_of panels5)) (row_width (row2_of panels5)))) =
      ["D", "E"] := by
  refine ⟨by decide, ?_, by decide, by decide⟩
  intro step h
  unfold step_label
  rw [if_neg (by omega)]

/-- Witness for C6's numeral branch at the concrete step 30. -/
theorem step_labels_C6_witness :
    step_label 30 = Nat.repr 30 :=
  step_labels_C6.2.1 30 (by decide)

/-! ## Claim C7: arrows within rows, none between rows -/

/-- **C7.** The arrows issued by a full render are exactly: for each row,
one horizontal arrow starting in the gap after each panel except the row's
last (`arrow_xs` lists those start positions), spanning exactly
`ARROW_WIDTH`, at that row's own centre line. Hence each row of `k`
panels receives `k − 1` arrows, and every arrow is horizontal at one of
the two row centre lines — no draw call connects row 1 to row 2. -/
theorem arrows_C7 (panels : List Img) :
    arrows_of (render_events panels) =
      (arrow_xs (PADDING : Int) (row1_of panels)).map
        (fun a => (a, (PADDING : Int) + (PIPELINE_HEIGHT : Int) / 2,
          a + (ARROW_WIDTH : Int), (PADDING : Int) + (PIPELINE_HEIGHT : Int) / 2)) ++
      (arrow_xs (row2_start_x (row_width (row1_of panels)) (row_width (row2_of panels)))
          (row2_of panels)).map
        (fun a => (a, ((PADDING : Int) + PIPELINE_HEIGHT + ROW_GAP) + (PIPELINE_HEIGHT : Int) / 2,
          a + (ARROW_WIDTH : Int),
          ((PADDING : Int) + PIPELINE_HEIGHT + ROW_GAP) + (PIPELINE_HEIGHT : Int) / 2)) ∧
    (arrows_of (render_events panels)).length =
      ((row1_of panels).length - 1) + ((row2_of panels).length - 1) := by
  have harr : arrows_of (render_events panels) =
      (arrow_xs (PADDING : Int) (row1_of panels)).map
        (fun a => (a, (PADDING : Int) + (PIPELINE_HEIGHT : Int) / 2,
          a + (ARROW_WIDTH : Int), (PADDING : Int) + (PIPELINE_HEIGHT : Int) / 2)) ++
      (arrow_xs (row2_start_x (row_width (row1_of panels)) (row_width (row2_of panels)))
          (row2_of panels)).map
        (fun a => (a, ((PADDING : Int) + PIPELINE_HEIGHT + ROW_GAP) + (PIPELINE_HEIGHT : Int) / 2,
          a + (ARROW_WIDTH : Int),
          ((PADDING : Int) + PIPELINE_HEIGHT + ROW_GAP) + (PIPELINE_HEIGHT : Int) / 2)) := by
    unfold render_events
    by_cases h : row2_of panels = []
    · rw [if_pos h, h]
      rw [arrows_of_draw_row]
      simp [arrow_xs]
    · rw [if_neg h, arrows_of_append, arrows_of_draw_row, arrows_of_draw_row]
  refine ⟨harr, ?_⟩
  rw [harr]
  simp only [List.length_append, List.length_map, arrow_xs_length]

/-! ## Claim C8: determinism of the composed output -/

/-- **C8.** For a fixed input state — the same set of matching files with
identical contents — the composed output (final saved dimensions and
every draw call) is identical across runs. The only nondeterminism in the
source is the unspecified enumeration order of `glob`; the sort key order
is total and antisymmetric, so sorting erases it, and every later stage
is a pure function of the sorted list. Stated as: any two enumeration
orders of the same files yield equal outputs. -/
theorem deterministic_output_C8 (contents : String → Img) (l1 l2 : List String)
    (h : l1.Perm l2) :
    pipeline_output contents l1 = pipeline_output contents l2 := by
  have hd : discover_images l1 = discover_images l2 :=
    List.eq_of_perm_of_sorted
      (((discover_images_perm l1).trans h).trans (discover_images_perm l2).symm)
      (discover_images_sorted_keyLE l1) (discover_images_sorted_keyLE l2)
  unfold pipeline_output
  rw [hd]

/-- Witness for C8: the two enumeration orders of
`{GA_image1, GA_image2}` yield the same output. -/
theorem deterministic_output_C8_witness :
    pipeline_output (fun _ => ⟨100, 340⟩) ["GA_image2", "GA_image1"] =
      pipeline_output (fun _ => ⟨100, 340⟩) ["GA_image1", "GA_image2"] :=
  deterministic_output_C8 (fun _ => ⟨100, 340⟩) _ _ (by decide)

/-! ## Claim C9: the rows partition the panels; steps are 1..N -/

/-- **C9.** Row 1 is exactly the first `min(3, N)` panels and row 2 the
rest: the rows partition the panel list in discovery order, row 1 is never
empty for `N ≥ 1`, every panel is pasted exactly once (the pasted panels
of the render are the panel list itself, in order), and the step indices
used for the labels across both rows are exactly `1..N` in order. -/
theorem rows_partition_C9 (panels : List Img) (hne : panels ≠ []) :
    row1_of panels ++ row2_of panels = panels ∧
    (row1_of panels).length = min 3 panels.length ∧
    row1_of panels ≠ [] ∧
    pasted_of (render_events panels) = panels ∧
    steps_of (render_events panels) = List.range' 1 panels.length := by
  have happ := row1_row2_append panels
  refine ⟨happ, row1_length panels, ?_, ?_, ?_⟩
  · unfold row1_of
    rw [Ne, List.take_eq_nil_iff]
    push_neg
    refine ⟨?_, hne⟩
    have : panels.length ≠ 0 := fun h0 => hne (List.length_eq_zero.mp h0)
    omega
  · unfold render_events
    by_cases h : row2_of panels = []
    · rw [if_pos h, pasted_of_draw_row]
      have := happ
      rw [h, List.append_nil] at this
      exact this
    · rw [if_neg h, pasted_of_append, pasted_of_draw_row, pasted_of_draw_row]
      exact happ
  · have hlen : (row1_of panels).length + (row2_of panels).length = panels.length := by
      have := congrArg List.length happ
      simpa using this
    unfold render_events
    by_cases h : row2_of panels = []
    · rw [if_pos h, steps_of_draw_row]
      have h1 : (row1_of panels).length = panels.length := by
        rw [h] at hlen
        simpa using hlen
      rw [h1]
    · rw [if_neg h, steps_of_append, steps_of_draw_row, steps_of_draw_row]
      have h2 := List.range'_append 1 (row1_of panels).length (row2_of panels).length 1
      simp only [one_mul] at h2
      rw [Nat.add_comm 1 (row1_of panels).length] at h2
      rw [h2]
      congr 1
      omega

/-- Witness for C9 on the one-panel list `[100 × 340]`. -/
theorem rows_partition_C9_witness :
    row1_of [(⟨100, 340⟩ : Img)] ++ row2_of [(⟨100, 340⟩ : Img)] =
      [(⟨100, 340⟩ : Img)] ∧
    (row1_of [(⟨100, 340⟩ : Img)]).length = min 3 [(⟨100, 340⟩ : Img)].length ∧
    row1_of [(⟨100, 340⟩ : Img)] ≠ [] ∧
    pasted_of (render_events [(⟨100, 340⟩ : Img)]) = [(⟨100, 340⟩ : Img)] ∧
    steps_of (render_events [(⟨100, 340⟩ : Img)]) =
      List.range' 1 [(⟨100, 340⟩ : Img)].length :=
  rows_partition_C9 [⟨100, 340⟩] (by decide)

/-! ## Claim C10: resize idempotence -/

lemma resize_to_height_h (img : Img) (t : Nat) :
    (resize_to_height img t).h = t := by
  unfold resize_to_height
  by_cases h : img.h = t
  · rw [if_pos h]
    exact h
  · rw [if_neg h]

lemma resize_to_height_fixed (img : Img) (t : Nat) (h : img.h = t) :
    resize_to_height img t = img := by
  unfold resize_to_height
  rw [if_pos h]

/-- **C10.** `resize_to_height` is idempotent for a fixed target height:
an image whose height already equals the target is returned unchanged
(first conjunct, the source's early return), and since any resized image
has exactly the target height, resizing twice equals resizing once. The
hypothesis `0 < img.h` restricts the statement to decodable images, where
the source's division is defined. -/
theorem resize_idempotent_C10 (img : Img) (target_h : Nat) (hh : 0 < img.h) :
    (img.h = target_h → resize_to_height img target_h = img) ∧
    resize_to_height (resize_to_height img target_h) target_h =
      resize_to_height img target_h :=
  ⟨resize_to_height_fixed img target_h,
   resize_to_height_fixed _ _ (resize_to_height_h img target_h)⟩

/-- Witness for C10 at the concrete image 100 × 340 and target 340. -/
theorem resize_idempotent_C10_witness :
    resize_to_height (⟨100, 340⟩ : Img) 340 = ⟨100, 340⟩ ∧
    resize_to_height (resize_to_height ⟨100, 340⟩ 340) 340 =
      resize_to_height ⟨100, 340⟩ 340 :=
  ⟨(resize_idempotent_C10 ⟨100, 340⟩ 340 (by decide)).1 rfl,
   (resize_idempotent_C10 ⟨100, 340⟩ 340 (by decide)).2⟩
